import Mathlib

/-!
Shallow embedding of the MiniChess 4x4 engine and its tabular
reinforcement-learning agent (src/PLE3/minichess.py), together with
theorems settling the specification's claims about move generation,
terminal evaluation, state serialization, epsilon-greedy action
selection and backward reward propagation.

Conventions of the embedding:
* the 4x4 numpy float board becomes `Board := Fin 4 → Fin 4 → ℤ`
  (every piece code is a small integer); `cell` mirrors the guarded
  numpy read `tablero[i, j]` (every read in the source sits behind a
  `0 <= x < N` guard, so the out-of-range default is never relevant);
* positions and piece codes are integers, as in the source, so the
  range guards `0 <= x < 4` translate literally;
* floating-point quantities (value table, rewards, epsilon) become ℚ,
  and the `-np.inf` sentinel of `decide_accion` becomes `⊥ : WithBot ℚ`;
* the numpy random draws of `decide_accion` are explicit arguments:
  `u` for `np.random.uniform(0, 1)` (so `0 ≤ u < 1`) and natural
  indices for the two `np.random.choice(len ...)` calls;
* the Python dict `_experiencia_estado_valor` becomes an association
  list with `lookupV` (default 0, i.e. `dict.get(s, 0)`) and `storeV`;
* `str(tablero.reshape(16))` is modelled as the row-major list of the
  16 cells rendered cell by cell (numpy renders each integral float as
  the digits followed by a dot, padded by sign) and joined with
  separators inside brackets.
-/

def PEON : ℤ := 1

def TORRE : ℤ := 5

def REY : ℤ := 6

abbrev Pos := ℤ × ℤ

abbrev Mv := Pos × Pos

abbrev Board := Fin 4 → Fin 4 → ℤ

def mkBoard (rows : List (List ℤ)) : Board :=
  fun i j => (rows.getD i.val []).getD j.val 0

/-- Guarded read `tablero[i, j]`. -/
def cell (b : Board) (i j : ℤ) : ℤ :=
  if h : 0 ≤ i ∧ i < 4 ∧ 0 ≤ j ∧ j < 4 then
    b ⟨i.toNat, by omega⟩ ⟨j.toNat, by omega⟩
  else 0

/-- Write `tablero[p] = v`. -/
def setCell (b : Board) (p : Pos) (v : ℤ) : Board :=
  fun i j => if ((i : ℤ), (j : ℤ)) = p then v else b i j

/-- `JuegoMiniChess.__inicializar_tablero`. -/
def tableroInicial : Board :=
  mkBoard [[5, 6, 0, 0], [1, 0, 0, 0], [0, 0, 0, -1], [0, 0, -6, -5]]

/-- `JuegoMiniChess.__movimientos_peon`: one step forward onto an empty
cell, diagonal-left and diagonal-right captures onto enemy cells, in the
source's emission order. -/
def movimientos_peon (tablero : Board) (origen : Pos) (jugador : ℤ) : List Mv :=
  let i := origen.1
  let j := origen.2
  let direccion : ℤ := if jugador = 1 then 1 else -1
  let nueva_i := i + direccion
  (if 0 ≤ nueva_i ∧ nueva_i < 4 ∧ cell tablero nueva_i j = 0 then
    [(origen, (nueva_i, j))] else []) ++
  (if 0 ≤ nueva_i ∧ nueva_i < 4 ∧ 0 ≤ j - 1 ∧ j - 1 < 4 ∧
      cell tablero nueva_i (j - 1) * jugador < 0 then
    [(origen, (nueva_i, j - 1))] else []) ++
  (if 0 ≤ nueva_i ∧ nueva_i < 4 ∧ 0 ≤ j + 1 ∧ j + 1 < 4 ∧
      cell tablero nueva_i (j + 1) * jugador < 0 then
    [(origen, (nueva_i, j + 1))] else [])

def direccionesTorre : List (ℤ × ℤ) := [(-1, 0), (1, 0), (0, -1), (0, 1)]

def direccionesRey : List (ℤ × ℤ) :=
  [(-1, -1), (-1, 0), (-1, 1), (0, -1), (0, 1), (1, -1), (1, 0), (1, 1)]

/-- The `while` loop of `JuegoMiniChess.__movimientos_torre` along one
direction `(di, dj)` starting at cell `(ni, nj)`.  The loop visits at
most 4 in-range cells, so fuel 8 is never exhausted. -/
def torreRay (tablero : Board) (origen : Pos) (jugador di dj : ℤ) :
    ℤ → ℤ → ℕ → List Mv
  | _, _, 0 => []
  | ni, nj, fuel + 1 =>
    if 0 ≤ ni ∧ ni < 4 ∧ 0 ≤ nj ∧ nj < 4 then
      if cell tablero ni nj = 0 then
        (origen, (ni, nj)) :: torreRay tablero origen jugador di dj (ni + di) (nj + dj) fuel
      else if cell tablero ni nj * jugador < 0 then
        [(origen, (ni, nj))]
      else []
    else []

/-- `JuegoMiniChess.__movimientos_torre`. -/
def movimientos_torre (tablero : Board) (origen : Pos) (jugador : ℤ) : List Mv :=
  direccionesTorre.flatMap fun d =>
    torreRay tablero origen jugador d.1 d.2 (origen.1 + d.1) (origen.2 + d.2) 8

/-- `JuegoMiniChess.__movimientos_rey`. -/
def movimientos_rey (tablero : Board) (origen : Pos) (jugador : ℤ) : List Mv :=
  direccionesRey.flatMap fun d =>
    let ni := origen.1 + d.1
    let nj := origen.2 + d.2
    if 0 ≤ ni ∧ ni < 4 ∧ 0 ≤ nj ∧ nj < 4 ∧
        (cell tablero ni nj = 0 ∨ cell tablero ni nj * jugador < 0) then
      [(origen, (ni, nj))]
    else []

/-- The row-major traversal order of the two nested `for` loops. -/
def cellList : List (ℤ × ℤ) :=
  (List.range 4).flatMap fun i => (List.range 4).map fun j => ((i : ℤ), (j : ℤ))

/-- `JuegoMiniChess.__calcular_movimientos_validos`. -/
def calcular_movimientos_validos (tablero : Board) (jugador : ℤ) : List Mv :=
  cellList.flatMap fun p =>
    let pieza := cell tablero p.1 p.2
    if (jugador = 1 ∧ 0 < pieza) ∨ (jugador = -1 ∧ pieza < 0) then
      if pieza.natAbs = 1 then movimientos_peon tablero p jugador
      else if pieza.natAbs = 5 then movimientos_torre tablero p jugador
      else if pieza.natAbs = 6 then movimientos_rey tablero p jugador
      else []
    else []

/-- The king-presence scan at the top of `__calcula_ganador`. -/
def hayRey (tablero : Board) (valor : ℤ) : Bool :=
  cellList.any fun p => cell tablero p.1 p.2 == valor

/-- `JuegoMiniChess.__calcula_ganador` as a function of the board and the
no-capture counter: `some 1` = player 1 wins, `some (-1)` = player 2 wins,
`some 0` = draw, `none` = the game goes on.  The source also sets the
`_fin` flag, which carries the same information (`_fin` iff non-`none`). -/
def calcula_ganador (tablero : Board) (turnos_sin_captura : ℕ) : Option ℤ :=
  if ¬ hayRey tablero REY then some (-1)
  else if ¬ hayRey tablero (-REY) then some 1
  else if (calcular_movimientos_validos tablero 1).length = 0 then some (-1)
  else if (calcular_movimientos_validos tablero (-1)).length = 0 then some 1
  else if 50 ≤ turnos_sin_captura then some 0
  else none

/-- One cell of `str(tablero.reshape(16))`: numpy renders the integral
float `v` as its digits followed by a dot, with a sign for negatives and
an alignment blank otherwise. -/
def tokChars (v : ℤ) : List Char :=
  (if v < 0 then "-" ++ toString (-v) ++ "." else " " ++ toString v ++ ".").data

/-- The separator-joined cell renderings of `str(numpy array)`. -/
def joinChars : List ℤ → List Char
  | [] => []
  | [v] => tokChars v
  | v :: rest => tokChars v ++ ' ' :: joinChars rest

/-- `tablero.reshape(n_cols * n_filas)`: the 16 cells in row-major order. -/
def reshape16 (b : Board) : List ℤ :=
  [b 0 0, b 0 1, b 0 2, b 0 3,
   b 1 0, b 1 1, b 1 2, b 1 3,
   b 2 0, b 2 1, b 2 2, b 2 3,
   b 3 0, b 3 1, b 3 2, b 3 3]

/-- `JuegoMiniChess._serializa_estado`: `str(tablero.reshape(16))`. -/
def serializa_estado (b : Board) : String :=
  String.mk ('[' :: joinChars (reshape16 b) ++ [']'])

/-- The piece codes that can appear on a board of this game. -/
def piezasLegales : List ℤ := [0, 1, -1, 5, -5, 6, -6]

/-- The mutable members of `JuegoMiniChess` touched by a move. -/
structure GameState where
  tablero : Board
  fin : Bool
  estado : Option String
  siguiente_jugador : ℤ
  turnos_sin_captura : ℕ

/-- `JuegoMiniChess.__actualiza_estado`. -/
def actualiza_estado (st : GameState) (movimiento : Mv) : GameState :=
  let origen := movimiento.1
  let destino := movimiento.2
  let pieza := cell st.tablero origen.1 origen.2
  let pieza_capturada := cell st.tablero destino.1 destino.2
  let t := setCell (setCell st.tablero destino pieza) origen 0
  { st with
    tablero := t
    turnos_sin_captura :=
      if pieza_capturada ≠ 0 then 0 else st.turnos_sin_captura + 1
    siguiente_jugador := if st.siguiente_jugador = 1 then -1 else 1
    estado := some (serializa_estado t) }

/-- `experiencia.get(s, 0)` on the value dictionary. -/
def lookupV (tbl : List (String × ℚ)) (k : String) : ℚ :=
  match tbl.find? (fun e => e.1 == k) with
  | some e => e.2
  | none => 0

/-- `experiencia[s] = v` on the value dictionary. -/
def storeV : List (String × ℚ) → String → ℚ → List (String × ℚ)
  | [], k, v => [(k, v)]
  | e :: rest, k, v => if e.1 = k then (k, v) :: rest else e :: storeV rest k v

/-- The loop body sequence of `retropropaga_recompensa`, applied to the
visited states already put in last-visited-first order. -/
def retroAux (alpha gamma : ℚ) : List String → List (String × ℚ) → ℚ → List (String × ℚ)
  | [], tbl, _ => tbl
  | s :: rest, tbl, r =>
    let valor_s := lookupV tbl s
    let nuevo_valor := valor_s + alpha * (r - valor_s)
    retroAux alpha gamma rest (storeV tbl s nuevo_valor) (nuevo_valor * gamma)

/-- `JugadorMiniChessMaq.retropropaga_recompensa`: walks
`_estados_juego_actual` from the last index down to 0, updating the value
table; returns the updated table. -/
def retropropaga_recompensa (alpha gamma : ℚ) (estados_juego_actual : List String)
    (experiencia : List (String × ℚ)) (recompensa_final : ℚ) : List (String × ℚ) :=
  retroAux alpha gamma estados_juego_actual.reverse experiencia recompensa_final

/-- The move simulation inside `decide_accion`: `siguiente_tablero =
tablero.copy()`, then the destination receives the origin piece and the
origin is cleared; only the copy is written. -/
def simula_movimiento (tablero : Board) (movimiento : Mv) : Board :=
  let pieza := cell tablero movimiento.1.1 movimiento.1.2
  setCell (setCell tablero movimiento.2 pieza) movimiento.1 0

/-- The value the agent assigns to a legal move: simulate it, serialize
the resulting board, look the key up with default 0. -/
def valorDe (experiencia : List (String × ℚ)) (tablero : Board) (movimiento : Mv) : ℚ :=
  lookupV experiencia (serializa_estado (simula_movimiento tablero movimiento))

/-- One iteration of the exploitation loop of `decide_accion`, carrying
`(valor_max, mejores_movimientos)`; `valor_max` starts at `-np.inf`,
modelled as `⊥ : WithBot ℚ`. -/
def mejor_paso (experiencia : List (String × ℚ)) (tablero : Board)
    (acc : WithBot ℚ × List Mv) (movimiento : Mv) : WithBot ℚ × List Mv :=
  let valor : WithBot ℚ := (valorDe experiencia tablero movimiento : ℚ)
  if acc.1 < valor then (valor, [movimiento])
  else if valor = acc.1 then (acc.1, acc.2 ++ [movimiento])
  else acc

/-- The `mejores_movimientos` list computed by the exploitation loop. -/
def mejores_movimientos (experiencia : List (String × ℚ)) (tablero : Board)
    (movimientos_validos : List Mv) : List Mv :=
  (movimientos_validos.foldl (mejor_paso experiencia tablero) (⊥, [])).2

/-- `JugadorMiniChessMaq.decide_accion`.  `u` is the draw of
`np.random.uniform(0, 1)`; `r1` and `r2` are the draws of the two
`np.random.choice(len ...)` calls.  The second component is the live
board after the call: the source mutates only `tablero.copy()`, so it
returns its `tablero` argument untouched. -/
def decide_accion (tasa_exploracion : ℚ) (experiencia : List (String × ℚ))
    (movimientos_validos : List Mv) (tablero : Board) (u : ℚ) (r1 r2 : ℕ) :
    Option Mv × Board :=
  if u ≤ tasa_exploracion then (movimientos_validos[r1]?, tablero)
  else ((mejores_movimientos experiencia tablero movimientos_validos)[r2]?, tablero)

/-- The largest successor value over a move list, `⊥` when empty. -/
def valorMaximo (experiencia : List (String × ℚ)) (tablero : Board) :
    List Mv → WithBot ℚ
  | [] => ⊥
  | m :: rest =>
    max ((valorDe experiencia tablero m : ℚ) : WithBot ℚ)
      (valorMaximo experiencia tablero rest)

/-- A board on which both kings are present and neither player has any
legal move: player 2's king boxed in at (0,3) by its own pawns, player
1's king boxed in at (3,0) by its own pawns, every pawn blocked. -/
def bAmbosAtascados : Board :=
  mkBoard [[0, 0, -1, -6], [0, 0, -1, -1], [1, 1, 0, 0], [6, 1, 0, 0]]

/-- The all-empty board: neither king is present. -/
def bVacio : Board := mkBoard [[0, 0, 0, 0], [0, 0, 0, 0], [0, 0, 0, 0], [0, 0, 0, 0]]

/-- A board on which player 1's pawn at (0,0) has exactly two legal
moves: forward to (1,0) and a diagonal capture of the enemy pawn at
(1,1). -/
def bPeon : Board := mkBoard [[1, 0, 0, 0], [0, -1, 0, 0], [0, 0, 0, 0], [0, 0, 0, 0]]

/-- The two legal moves of player 1 on `bPeon`, in generation order. -/
def movsPeon : List Mv := [((0, 0), (1, 0)), ((0, 0), (1, 1))]

/-- A value table that knows only the successor reached by the capture
move on `bPeon`, valuing it 1. -/
def expPeon : List (String × ℚ) :=
  [(serializa_estado (simula_movimiento bPeon ((0, 0), (1, 1))), 1)]

/-- A board with a lone player-1 rook at (1,1) and an enemy pawn at
(1,3) on its rightward ray. -/
def bTorre : Board := mkBoard [[0, 0, 0, 0], [0, 5, 0, -1], [0, 0, 0, 0], [0, 0, 0, 0]]

/-- A one-piece board: only player 1's king, at (0,0). -/
def bSoloReyA : Board := mkBoard [[6, 0, 0, 0], [0, 0, 0, 0], [0, 0, 0, 0], [0, 0, 0, 0]]

/-- A game session snapshot used to instantiate the move-application
theorem. -/
def stEjemplo : GameState :=
  { tablero := tableroInicial, fin := false, estado := none,
    siguiente_jugador := 1, turnos_sin_captura := 7 }

lemma mem_if_singleton {c : Prop} [Decidable c] (a mv : Mv) :
    (mv ∈ if c then [a] else []) ↔ c ∧ mv = a := by
  split
  · simp [*]
  · simp [*]

lemma cell_setCell (b : Board) (p : Pos) (v : ℤ) (i j : ℤ)
    (h : 0 ≤ i ∧ i < 4 ∧ 0 ≤ j ∧ j < 4) :
    cell (setCell b p v) i j = if (i, j) = p then v else cell b i j := by
  unfold cell setCell
  rw [dif_pos h]
  have hi : ∀ hh : i.toNat < 4, (((⟨i.toNat, hh⟩ : Fin 4) : ℕ) : ℤ) = i := by
    intro hh
    simp [Int.toNat_of_nonneg h.1]
  have hj : ∀ hh : j.toNat < 4, (((⟨j.toNat, hh⟩ : Fin 4) : ℕ) : ℤ) = j := by
    intro hh
    simp [Int.toNat_of_nonneg h.2.2.1]
  rw [hi, hj]
  split
  · rfl
  · rfl

/-- C1 counterexample: on `bAmbosAtascados` both kings are present and
the side about to move — player 2 — has zero legal moves, yet
`__calcula_ganador` does not return a player-1 win: it checks player 1's
move list first and returns a player-2 win. -/
theorem claim_C1_counterexample :
    hayRey bAmbosAtascados REY = true ∧ hayRey bAmbosAtascados (-REY) = true ∧
    calcular_movimientos_validos bAmbosAtascados (-1) = [] ∧
    calcula_ganador bAmbosAtascados 0 ≠ some 1 := by decide

/-- C1 (amended): on a board with both kings present, `__calcula_ganador`
applies the stalemate rule in a fixed player order, without consulting
the side about to move: if player 1 has zero legal moves it returns a
player-2 win, and otherwise, if player 2 has zero legal moves, a
player-1 win.  Both stalemate checks take precedence over the
50-no-capture draw check (the counter value is arbitrary here, 50 and
beyond included). -/
theorem claim_C1_amended (b : Board) (t : ℕ)
    (h1 : hayRey b REY = true) (h2 : hayRey b (-REY) = true) :
    (calcular_movimientos_validos b 1 = [] → calcula_ganador b t = some (-1)) ∧
    (calcular_movimientos_validos b 1 ≠ [] →
      calcular_movimientos_validos b (-1) = [] → calcula_ganador b t = some 1) := by
  constructor
  · intro hm
    simp [calcula_ganador, h1, h2, hm]
  · intro hm1 hm2
    simp [calcula_ganador, h1, h2, hm1, hm2]

theorem claim_C1_witness :
    (hayRey bAmbosAtascados REY = true ∧ hayRey bAmbosAtascados (-REY) = true ∧
      calcular_movimientos_validos bAmbosAtascados 1 = []) ∧
    calcula_ganador bAmbosAtascados 100 = some (-1) :=
  ⟨⟨by decide, by decide, by decide⟩,
    (claim_C1_amended bAmbosAtascados 100 (by decide) (by decide)).1 (by decide)⟩

/-- C4 counterexample: on the empty board side B's king is absent, yet
`__calcula_ganador` does not return A_WINS — it checks side A's king
first and returns a player-2 win. -/
theorem claim_C4_counterexample :
    hayRey bVacio (-REY) = false ∧ calcula_ganador bVacio 0 ≠ some 1 := by decide

/-- C4 (amended): `__calcula_ganador` returns A_WINS (1) whenever side
B's king is absent and side A's king is present, regardless of all other
board content; the source checks side A's king first, so when side A's
king is absent it returns B_WINS (-1) even if side B's king is absent
too. -/
theorem claim_C4_amended (b : Board) (t : ℕ) :
    (hayRey b REY = false → calcula_ganador b t = some (-1)) ∧
    (hayRey b REY = true → hayRey b (-REY) = false → calcula_ganador b t = some 1) := by
  constructor
  · intro h
    simp [calcula_ganador, h]
  · intro h1 h2
    simp [calcula_ganador, h1, h2]

theorem claim_C4_witness :
    (hayRey bSoloReyA REY = true ∧ hayRey bSoloReyA (-REY) = false) ∧
    calcula_ganador bSoloReyA 7 = some 1 :=
  ⟨⟨by decide, by decide⟩, (claim_C4_amended bSoloReyA 7).2 (by decide) (by decide)⟩

/-- C5: applying a move through `__actualiza_estado` puts the origin
piece on the destination (overwriting any occupant), empties the origin,
leaves every other cell unchanged, resets the no-capture counter to 0
exactly when the destination was occupied and increments it otherwise,
flips the side to move, and stores the serialization of the resulting
board as the session state. -/
theorem claim_C5 (st : GameState) (o1 o2 d1 d2 : ℤ)
    (ho : 0 ≤ o1 ∧ o1 < 4 ∧ 0 ≤ o2 ∧ o2 < 4)
    (hd : 0 ≤ d1 ∧ d1 < 4 ∧ 0 ≤ d2 ∧ d2 < 4)
    (hne : ((o1, o2) : Pos) ≠ (d1, d2)) :
    cell (actualiza_estado st ((o1, o2), (d1, d2))).tablero d1 d2 =
      cell st.tablero o1 o2 ∧
    cell (actualiza_estado st ((o1, o2), (d1, d2))).tablero o1 o2 = 0 ∧
    (∀ p1 p2 : ℤ, 0 ≤ p1 ∧ p1 < 4 ∧ 0 ≤ p2 ∧ p2 < 4 →
      ((p1, p2) : Pos) ≠ (o1, o2) → ((p1, p2) : Pos) ≠ (d1, d2) →
      cell (actualiza_estado st ((o1, o2), (d1, d2))).tablero p1 p2 =
        cell st.tablero p1 p2) ∧
    (cell st.tablero d1 d2 ≠ 0 →
      (actualiza_estado st ((o1, o2), (d1, d2))).turnos_sin_captura = 0) ∧
    (cell st.tablero d1 d2 = 0 →
      (actualiza_estado st ((o1, o2), (d1, d2))).turnos_sin_captura =
        st.turnos_sin_captura + 1) ∧
    (st.siguiente_jugador = 1 →
      (actualiza_estado st ((o1, o2), (d1, d2))).siguiente_jugador = -1) ∧
    (st.siguiente_jugador ≠ 1 →
      (actualiza_estado st ((o1, o2), (d1, d2))).siguiente_jugador = 1) ∧
    (actualiza_estado st ((o1, o2), (d1, d2))).estado =
      some (serializa_estado (actualiza_estado st ((o1, o2), (d1, d2))).tablero) := by
  refine ⟨?_, ?_, ?_, ?_, ?_, ?_, ?_, ?_⟩
  · simp only [actualiza_estado]
    rw [cell_setCell _ _ _ _ _ hd, if_neg (by simpa using hne.symm),
      cell_setCell _ _ _ _ _ hd, if_pos rfl]
  · simp only [actualiza_estado]
    rw [cell_setCell _ _ _ _ _ ho, if_pos rfl]
  · intro p1 p2 hp hpo hpd
    simp only [actualiza_estado]
    rw [cell_setCell _ _ _ _ _ hp, if_neg hpo, cell_setCell _ _ _ _ _ hp, if_neg hpd]
  · intro h
    simp [actualiza_estado, h]
  · intro h
    simp [actualiza_estado, h]
  · intro h
    simp [actualiza_estado, h]
  · intro h
    simp [actualiza_estado, h]
  · simp [actualiza_estado]

theorem claim_C5_witness :
    ((0 ≤ (1 : ℤ) ∧ (1 : ℤ) < 4 ∧ 0 ≤ (0 : ℤ) ∧ (0 : ℤ) < 4) ∧
      (0 ≤ (2 : ℤ) ∧ (2 : ℤ) < 4 ∧ 0 ≤ (0 : ℤ) ∧ (0 : ℤ) < 4) ∧
      (((1, 0) : Pos) ≠ (2, 0))) ∧
    (cell (actualiza_estado stEjemplo ((1, 0), (2, 0))).tablero 2 0 =
        cell stEjemplo.tablero 1 0 ∧
      cell (actualiza_estado stEjemplo ((1, 0), (2, 0))).tablero 1 0 = 0 ∧
      (∀ p1 p2 : ℤ, 0 ≤ p1 ∧ p1 < 4 ∧ 0 ≤ p2 ∧ p2 < 4 →
        ((p1, p2) : Pos) ≠ (1, 0) → ((p1, p2) : Pos) ≠ (2, 0) →
        cell (actualiza_estado stEjemplo ((1, 0), (2, 0))).tablero p1 p2 =
          cell stEjemplo.tablero p1 p2) ∧
      (cell stEjemplo.tablero 2 0 ≠ 0 →
        (actualiza_estado stEjemplo ((1, 0), (2, 0))).turnos_sin_captura = 0) ∧
      (cell stEjemplo.tablero 2 0 = 0 →
        (actualiza_estado stEjemplo ((1, 0), (2, 0))).turnos_sin_captura =
          stEjemplo.turnos_sin_captura + 1) ∧
      (stEjemplo.siguiente_jugador = 1 →
        (actualiza_estado stEjemplo ((1, 0), (2, 0))).siguiente_jugador = -1) ∧
      (stEjemplo.siguiente_jugador ≠ 1 →
        (actualiza_estado stEjemplo ((1, 0), (2, 0))).siguiente_jugador = 1) ∧
      (actualiza_estado stEjemplo ((1, 0), (2, 0))).estado =
        some (serializa_estado (actualiza_estado stEjemplo ((1, 0), (2, 0))).tablero)) :=
  ⟨⟨by decide, by decide, by decide⟩,
    claim_C5 stEjemplo 1 0 2 0 (by decide) (by decide) (by decide)⟩

/-- C9: `decide_accion` never mutates the live board it is given — the
simulation of each candidate move writes only to a copy
(`simula_movimiento` builds a new board), and the board handed back with
the decision is exactly the input board. -/
theorem claim_C9 (tasa_exploracion : ℚ) (experiencia : List (String × ℚ))
    (movimientos_validos : List Mv) (tablero : Board) (u : ℚ) (r1 r2 : ℕ) :
    (decide_accion tasa_exploracion experiencia movimientos_validos tablero u r1 r2).2 =
      tablero := by
  unfold decide_accion
  split
  · rfl
  · rfl

/-- C2: `retropropaga_recompensa` walks the episode trace from the most
recent state to the earliest, carrying a running target initialized to
the final reward: the most recently recorded state is updated first to
`v + α·(target − v)` (value looked up with default 0) and the target for
the next earlier state becomes `new_value × γ`; with α = 1/5, γ = 9/10
(the constructor defaults 0.2 and 0.9) and final reward 1, a trace of
three distinct states with all-zero initial values stores exactly 1/5,
9/250 and 81/12500, from last-visited to first-visited. -/
theorem claim_C2 :
    (∀ (alpha gamma : ℚ) (xs : List String) (s : String)
      (tbl : List (String × ℚ)) (r : ℚ),
      retropropaga_recompensa alpha gamma (xs ++ [s]) tbl r =
        retropropaga_recompensa alpha gamma xs
          (storeV tbl s (lookupV tbl s + alpha * (r - lookupV tbl s)))
          ((lookupV tbl s + alpha * (r - lookupV tbl s)) * gamma)) ∧
    (∀ s1 s2 s3 : String, s1 ≠ s2 → s1 ≠ s3 → s2 ≠ s3 →
      lookupV (retropropaga_recompensa (1/5) (9/10) [s1, s2, s3] [] 1) s3 = 1/5 ∧
      lookupV (retropropaga_recompensa (1/5) (9/10) [s1, s2, s3] [] 1) s2 = 9/250 ∧
      lookupV (retropropaga_recompensa (1/5) (9/10) [s1, s2, s3] [] 1) s1 = 81/12500) := by
  constructor
  · intro alpha gamma xs s tbl r
    simp [retropropaga_recompensa, List.reverse_append, retroAux]
  · intro s1 s2 s3 h12 h13 h23
    have e32 : (s3 == s2) = false := by simp [Ne.symm h23]
    have e31 : (s3 == s1) = false := by simp [Ne.symm h13]
    have e21 : (s2 == s1) = false := by simp [Ne.symm h12]
    simp [retropropaga_recompensa, retroAux, lookupV, storeV, List.find?,
      Ne.symm h23, Ne.symm h13, Ne.symm h12, e32, e31, e21]
    norm_num

theorem claim_C2_witness :
    (("a" : String) ≠ "b" ∧ ("a" : String) ≠ "c" ∧ ("b" : String) ≠ "c") ∧
    (lookupV (retropropaga_recompensa (1/5) (9/10) ["a", "b", "c"] [] 1) "c" = 1/5 ∧
      lookupV (retropropaga_recompensa (1/5) (9/10) ["a", "b", "c"] [] 1) "b" = 9/250 ∧
      lookupV (retropropaga_recompensa (1/5) (9/10) ["a", "b", "c"] [] 1) "a" = 81/12500) :=
  ⟨⟨by decide, by decide, by decide⟩,
    claim_C2.2 "a" "b" "c" (by decide) (by decide) (by decide)⟩

lemma mejor_paso_fst (experiencia : List (String × ℚ)) (tablero : Board)
    (acc : WithBot ℚ × List Mv) (m : Mv) :
    (mejor_paso experiencia tablero acc m).1 =
      max acc.1 ((valorDe experiencia tablero m : ℚ) : WithBot ℚ) := by
  unfold mejor_paso
  rcases lt_trichotomy acc.1 ((valorDe experiencia tablero m : ℚ) : WithBot ℚ) with h | h | h
  · simp [h, max_eq_right h.le]
  · simp [h, lt_irrefl, max_self]
  · rw [if_neg (by exact not_lt_of_gt h),
      if_neg (by exact fun he => absurd (he ▸ h) (lt_irrefl _)), max_eq_left h.le]

lemma foldl_mejor_snd (experiencia : List (String × ℚ)) (tablero : Board) :
    ∀ (movs : List Mv) (m0 : WithBot ℚ) (l0 : List Mv),
      (movs.foldl (mejor_paso experiencia tablero) (m0, l0)).2 =
        (if m0 = max m0 (valorMaximo experiencia tablero movs) then l0 else []) ++
          movs.filter (fun m => decide
            (((valorDe experiencia tablero m : ℚ) : WithBot ℚ) =
              max m0 (valorMaximo experiencia tablero movs))) := by
  intro movs
  induction movs with
  | nil => intro m0 l0; simp [valorMaximo]
  | cons m rest ih =>
    intro m0 l0
    simp only [List.foldl_cons]
    rcases lt_trichotomy m0 ((valorDe experiencia tablero m : ℚ) : WithBot ℚ) with h | h | h
    · rw [show mejor_paso experiencia tablero (m0, l0) m =
          (((valorDe experiencia tablero m : ℚ) : WithBot ℚ), [m]) by
        unfold mejor_paso; simp [h]]
      rw [ih, List.filter_cons]
      simp only [valorMaximo]
      have hmax : max m0 (max ((valorDe experiencia tablero m : ℚ) : WithBot ℚ)
          (valorMaximo experiencia tablero rest)) =
          max ((valorDe experiencia tablero m : ℚ) : WithBot ℚ)
            (valorMaximo experiencia tablero rest) :=
        max_eq_right (le_trans h.le (le_max_left _ _))
      simp only [hmax]
      rw [if_neg (ne_of_lt (lt_of_lt_of_le h (le_max_left _ _)))]
      by_cases hv : ((valorDe experiencia tablero m : ℚ) : WithBot ℚ) =
        max ((valorDe experiencia tablero m : ℚ) : WithBot ℚ)
          (valorMaximo experiencia tablero rest)
      · rw [if_pos hv, if_pos (decide_eq_true hv)]
        simp
      · rw [if_neg hv, if_neg (by simp [hv])]
    · rw [show mejor_paso experiencia tablero (m0, l0) m = (m0, l0 ++ [m]) by
        unfold mejor_paso; rw [if_neg (h ▸ lt_irrefl m0), if_pos h.symm]]
      rw [ih, List.filter_cons]
      simp only [valorMaximo, ← h, ← max_assoc, max_self]
      by_cases hm : m0 = max m0 (valorMaximo experiencia tablero rest)
      · rw [if_pos hm, if_pos hm, if_pos (decide_eq_true hm)]
        simp
      · rw [if_neg hm, if_neg hm, if_neg (by simp [hm])]
    · rw [show mejor_paso experiencia tablero (m0, l0) m = (m0, l0) by
        unfold mejor_paso; rw [if_neg (not_lt_of_gt h), if_neg (ne_of_lt h)]]
      rw [ih, List.filter_cons]
      simp only [valorMaximo, ← max_assoc, max_eq_left h.le]
      have hvm : ((valorDe experiencia tablero m : ℚ) : WithBot ℚ) <
          max m0 (valorMaximo experiencia tablero rest) :=
        lt_of_lt_of_le h (le_max_left m0 (valorMaximo experiencia tablero rest))
      have hne2 : ((valorDe experiencia tablero m : ℚ) : WithBot ℚ) ≠
          max m0 (valorMaximo experiencia tablero rest) := ne_of_lt hvm
      simp [hne2]

lemma valorMaximo_ge (experiencia : List (String × ℚ)) (tablero : Board) :
    ∀ (movs : List Mv) (m : Mv), m ∈ movs →
      ((valorDe experiencia tablero m : ℚ) : WithBot ℚ) ≤
        valorMaximo experiencia tablero movs := by
  intro movs
  induction movs with
  | nil => intro m hm; simp at hm
  | cons a rest ih =>
    intro m hm
    rcases List.mem_cons.mp hm with rfl | hm
    · simp [valorMaximo]
    · exact le_trans (ih m hm) (by simp [valorMaximo])

lemma valorMaximo_attained (experiencia : List (String × ℚ)) (tablero : Board) :
    ∀ (movs : List Mv), movs ≠ [] →
      ∃ m ∈ movs, ((valorDe experiencia tablero m : ℚ) : WithBot ℚ) =
        valorMaximo experiencia tablero movs := by
  intro movs
  induction movs with
  | nil => intro hne; exact absurd rfl hne
  | cons a rest ih =>
    intro _
    rcases eq_or_ne rest [] with rfl | hrest
    · exact ⟨a, by simp, by simp [valorMaximo]⟩
    · obtain ⟨m, hm, hv⟩ := ih hrest
      rcases le_total ((valorDe experiencia tablero a : ℚ) : WithBot ℚ)
        (valorMaximo experiencia tablero rest) with hle | hle
      · exact ⟨m, by simp [hm], by simp [valorMaximo, hv, max_eq_right hle]⟩
      · exact ⟨a, by simp, by simp [valorMaximo, max_eq_left hle]⟩

lemma mejores_eq_filter (experiencia : List (String × ℚ)) (tablero : Board)
    (movs : List Mv) :
    mejores_movimientos experiencia tablero movs =
      movs.filter (fun m => decide (∀ m2 ∈ movs,
        valorDe experiencia tablero m2 ≤ valorDe experiencia tablero m)) := by
  unfold mejores_movimientos
  rw [foldl_mejor_snd]
  rw [max_eq_right (by exact bot_le), ite_self, List.nil_append]
  apply List.filter_congr
  intro m hm
  rw [decide_eq_decide]
  constructor
  · intro h m2 hm2
    have h2 := valorMaximo_ge experiencia tablero movs m2 hm2
    rw [← h] at h2
    exact_mod_cast h2
  · intro h
    refine le_antisymm (valorMaximo_ge experiencia tablero movs m hm) ?_
    obtain ⟨mstar, hmem, hval⟩ :=
      valorMaximo_attained experiencia tablero movs (List.ne_nil_of_mem hm)
    rw [← hval]
    exact_mod_cast h mstar hmem

/-- C3 counterexample: with ε = 0.0 the agent does not always return a
move from the maximal-value successor set.  `np.random.uniform(0, 1)`
can return exactly 0.0 (the low end is inclusive), and `0.0 <= 0.0`
takes the exploration branch: on `bPeon`, whose capture move is the
unique maximizer, the draw `u = 0` with random index 0 returns the
forward move, which is not a maximizer. -/
theorem claim_C3_counterexample :
    movsPeon = calcular_movimientos_validos bPeon 1 ∧
    (decide_accion 0 expPeon movsPeon bPeon 0 0 0).1 = some ((0, 0), (1, 0)) ∧
    ((0, 0), (1, 0)) ∉ mejores_movimientos expPeon bPeon movsPeon := by decide

/-- C3 (amended): `decide_accion` is epsilon-greedy over the draw
`u = np.random.uniform(0, 1) ∈ [0, 1)`: when `u ≤ ε` it returns the
`r1`-th legal move (exploration), and otherwise it returns the `r2`-th
element of the list of moves whose simulated, serialized successor has
the maximal looked-up value (default 0).  With ε = 1.0 it always
explores; with ε = 0.0 it returns a maximal-value move whenever the
draw is nonzero — the boundary draw `u = 0.0` (a probability-zero
event) still explores, because the comparison is `<=`. -/
theorem claim_C3_amended (tasa_exploracion : ℚ) (experiencia : List (String × ℚ))
    (movs : List Mv) (tablero : Board) (u : ℚ) (r1 r2 : ℕ)
    (hu0 : 0 ≤ u) (hu1 : u < 1) :
    (u ≤ tasa_exploracion →
      (decide_accion tasa_exploracion experiencia movs tablero u r1 r2).1 = movs[r1]?) ∧
    (tasa_exploracion < u →
      (decide_accion tasa_exploracion experiencia movs tablero u r1 r2).1 =
        (movs.filter (fun m => decide (∀ m2 ∈ movs,
          valorDe experiencia tablero m2 ≤ valorDe experiencia tablero m)))[r2]?) ∧
    (tasa_exploracion = 1 →
      (decide_accion tasa_exploracion experiencia movs tablero u r1 r2).1 = movs[r1]?) ∧
    (tasa_exploracion = 0 → 0 < u →
      (decide_accion tasa_exploracion experiencia movs tablero u r1 r2).1 =
        (movs.filter (fun m => decide (∀ m2 ∈ movs,
          valorDe experiencia tablero m2 ≤ valorDe experiencia tablero m)))[r2]?) := by
  refine ⟨?_, ?_, ?_, ?_⟩
  · intro h
    rw [decide_accion, if_pos h]
  · intro h
    rw [decide_accion, if_neg (not_le_of_gt h), mejores_eq_filter]
  · intro h
    rw [decide_accion, if_pos (h ▸ hu1.le)]
  · intro h hu
    rw [decide_accion, if_neg (h ▸ not_le_of_gt hu), mejores_eq_filter]

theorem claim_C3_witness :
    ((0 : ℚ) ≤ 1 / 2 ∧ (1 / 2 : ℚ) < 1 ∧ (0 : ℚ) = 0 ∧ (0 : ℚ) < 1 / 2) ∧
    (decide_accion 0 expPeon movsPeon bPeon (1 / 2) 0 0).1 =
      (movsPeon.filter (fun m => decide (∀ m2 ∈ movsPeon,
        valorDe expPeon bPeon m2 ≤ valorDe expPeon bPeon m)))[0]? :=
  ⟨⟨by norm_num, by norm_num, rfl, by norm_num⟩,
    (claim_C3_amended 0 expPeon movsPeon bPeon (1 / 2) 0 0
      (by norm_num) (by norm_num)).2.2.2 rfl (by norm_num)⟩

/-- C10: for a non-empty legal-move list (and random indices in range,
as `np.random.choice(len ...)` guarantees), `decide_accion` always
returns `some` element of the list: the maximizer list of the
exploitation branch is non-empty because every looked-up value (a
rational, default 0) exceeds the `-np.inf` (here `⊥`) initialization of
the maximum. -/
theorem claim_C10 (tasa_exploracion : ℚ) (experiencia : List (String × ℚ))
    (movs : List Mv) (tablero : Board) (u : ℚ) (r1 r2 : ℕ)
    (hne : movs ≠ []) (hr1 : r1 < movs.length)
    (hr2 : r2 < (mejores_movimientos experiencia tablero movs).length) :
    mejores_movimientos experiencia tablero movs ≠ [] ∧
    ∃ m, (decide_accion tasa_exploracion experiencia movs tablero u r1 r2).1 = some m ∧
      m ∈ movs := by
  constructor
  · obtain ⟨mstar, hmem, hval⟩ := valorMaximo_attained experiencia tablero movs hne
    have hmm : mstar ∈ mejores_movimientos experiencia tablero movs := by
      rw [mejores_eq_filter]
      refine List.mem_filter.mpr ⟨hmem, ?_⟩
      rw [decide_eq_true_eq]
      intro m2 hm2
      have h2 := valorMaximo_ge experiencia tablero movs m2 hm2
      rw [← hval] at h2
      exact_mod_cast h2
    exact List.ne_nil_of_mem hmm
  · rw [decide_accion]
    split
    · refine ⟨movs[r1], ?_, ?_⟩
      · rw [List.getElem?_eq_getElem hr1]
      · exact List.getElem_mem hr1
    · refine ⟨(mejores_movimientos experiencia tablero movs)[r2], ?_, ?_⟩
      · rw [List.getElem?_eq_getElem hr2]
      · have hmem := List.getElem_mem hr2
        have hsub : ∀ x, x ∈ mejores_movimientos experiencia tablero movs → x ∈ movs := by
          intro x hx
          rw [mejores_eq_filter] at hx
          exact List.mem_of_mem_filter hx
        exact hsub _ hmem

theorem claim_C10_witness :
    (movsPeon ≠ [] ∧ 0 < movsPeon.length ∧
      0 < (mejores_movimientos expPeon bPeon movsPeon).length) ∧
    (mejores_movimientos expPeon bPeon movsPeon ≠ [] ∧
      ∃ m, (decide_accion (3 / 10) expPeon movsPeon bPeon (1 / 2) 0 0).1 = some m ∧
        m ∈ movsPeon) :=
  ⟨⟨by decide, by decide, by decide⟩,
    claim_C10 (3 / 10) expPeon movsPeon bPeon (1 / 2) 0 0
      (by decide) (by decide) (by decide)⟩

lemma tokChars_three : ∀ v ∈ piezasLegales, (tokChars v).length = 3 := by decide

lemma tokChars_injOn :
    ∀ v ∈ piezasLegales, ∀ w ∈ piezasLegales, tokChars v = tokChars w → v = w := by decide

lemma joinChars_injOn :
    ∀ (l1 l2 : List ℤ), l1.length = l2.length →
      (∀ v ∈ l1, v ∈ piezasLegales) → (∀ v ∈ l2, v ∈ piezasLegales) →
      joinChars l1 = joinChars l2 → l1 = l2 := by
  intro l1
  induction l1 with
  | nil =>
    intro l2 hlen _ _ _
    cases l2 with
    | nil => rfl
    | cons w s => simp at hlen
  | cons v t ih =>
    intro l2 hlen hm1 hm2 hj
    cases l2 with
    | nil => simp at hlen
    | cons w s =>
      cases t with
      | nil =>
        cases s with
        | nil =>
          simp only [joinChars] at hj
          rw [tokChars_injOn v (hm1 v (by simp)) w (hm2 w (by simp)) hj]
        | cons w2 s2 => simp at hlen
      | cons v2 t2 =>
        cases s with
        | nil => simp at hlen
        | cons w2 s2 =>
          simp only [joinChars] at hj
          have hlen3 : (tokChars v).length = (tokChars w).length := by
            rw [tokChars_three v (hm1 v (by simp)), tokChars_three w (hm2 w (by simp))]
          obtain ⟨h1, h2⟩ := List.append_inj hj hlen3
          have hv := tokChars_injOn v (hm1 v (by simp)) w (hm2 w (by simp)) h1
          have h2t : joinChars (v2 :: t2) = joinChars (w2 :: s2) := by
            injection h2
          have ht := ih (w2 :: s2) (by simpa using hlen)
            (fun x hx => hm1 x (List.mem_cons_of_mem v hx))
            (fun x hx => hm2 x (List.mem_cons_of_mem w hx)) h2t
          rw [hv, ht]

/-- C6: `_serializa_estado` is deterministic and depends only on the
board content in row-major order (it is a function of the reshaped cell
list alone — no game-history data such as the no-capture counter is in
scope), and it is injective on board layouts over the legal piece set
{0, ±1, ±5, ±6}: two legal boards serialize to the same key exactly when
they agree on every cell. -/
theorem claim_C6 (b1 b2 : Board)
    (h1 : ∀ i j : Fin 4, b1 i j ∈ piezasLegales)
    (h2 : ∀ i j : Fin 4, b2 i j ∈ piezasLegales) :
    (serializa_estado b1 = serializa_estado b2 ↔ ∀ i j : Fin 4, b1 i j = b2 i j) := by
  constructor
  · intro h
    unfold serializa_estado at h
    have hdata : '[' :: joinChars (reshape16 b1) ++ [']'] =
        '[' :: joinChars (reshape16 b2) ++ [']'] := by
      have := congrArg String.data h
      simpa using this
    have htail : joinChars (reshape16 b1) ++ [']'] = joinChars (reshape16 b2) ++ [']'] :=
      List.tail_eq_of_cons_eq hdata
    have hjoin : joinChars (reshape16 b1) = joinChars (reshape16 b2) :=
      (List.append_inj' htail rfl).1
    have hmem1 : ∀ v ∈ reshape16 b1, v ∈ piezasLegales := by
      intro v hv
      fin_cases hv <;> exact h1 _ _
    have hmem2 : ∀ v ∈ reshape16 b2, v ∈ piezasLegales := by
      intro v hv
      fin_cases hv <;> exact h2 _ _
    have hr : reshape16 b1 = reshape16 b2 :=
      joinChars_injOn _ _ (by simp [reshape16]) hmem1 hmem2 hjoin
    simp only [reshape16, List.cons.injEq, and_true] at hr
    intro i j
    fin_cases i <;> fin_cases j <;> simp_all
  · intro h
    have hb : b1 = b2 := funext fun i => funext fun j => h i j
    rw [hb]

theorem claim_C6_witness :
    ((∀ i j : Fin 4, tableroInicial i j ∈ piezasLegales) ∧
      (∀ i j : Fin 4, bPeon i j ∈ piezasLegales)) ∧
    (serializa_estado tableroInicial = serializa_estado bPeon ↔
      ∀ i j : Fin 4, tableroInicial i j = bPeon i j) :=
  ⟨⟨by decide, by decide⟩, claim_C6 tableroInicial bPeon (by decide) (by decide)⟩

set_option maxHeartbeats 1000000 in
/-- C8: the generated pawn moves are exactly: one cell forward
(increasing row for side A = 1, decreasing row for side B = -1) when
that cell is on the board and empty, plus the two diagonally-forward
cells when on the board and holding an opposing piece (negative for
side A, positive for side B); in particular a forward move onto an
occupied cell, and a diagonal move onto an empty or own-occupied cell,
are never generated. -/
theorem claim_C8 (tablero : Board) (i j : ℤ) (mv : Mv) :
    (mv ∈ movimientos_peon tablero (i, j) 1 ↔
      ((0 ≤ i + 1 ∧ i + 1 < 4 ∧ cell tablero (i + 1) j = 0 ∧
          mv = ((i, j), (i + 1, j))) ∨
        (0 ≤ i + 1 ∧ i + 1 < 4 ∧ 0 ≤ j - 1 ∧ j - 1 < 4 ∧
          cell tablero (i + 1) (j - 1) < 0 ∧ mv = ((i, j), (i + 1, j - 1))) ∨
        (0 ≤ i + 1 ∧ i + 1 < 4 ∧ 0 ≤ j + 1 ∧ j + 1 < 4 ∧
          cell tablero (i + 1) (j + 1) < 0 ∧ mv = ((i, j), (i + 1, j + 1))))) ∧
    (mv ∈ movimientos_peon tablero (i, j) (-1) ↔
      ((0 ≤ i - 1 ∧ i - 1 < 4 ∧ cell tablero (i - 1) j = 0 ∧
          mv = ((i, j), (i - 1, j))) ∨
        (0 ≤ i - 1 ∧ i - 1 < 4 ∧ 0 ≤ j - 1 ∧ j - 1 < 4 ∧
          0 < cell tablero (i - 1) (j - 1) ∧ mv = ((i, j), (i - 1, j - 1))) ∨
        (0 ≤ i - 1 ∧ i - 1 < 4 ∧ 0 ≤ j + 1 ∧ j + 1 < 4 ∧
          0 < cell tablero (i - 1) (j + 1) ∧ mv = ((i, j), (i - 1, j + 1))))) := by
  constructor
  · simp only [movimientos_peon, List.mem_append, mem_if_singleton]
    norm_num
    tauto
  · have hsub : i + (-1 : ℤ) = i - 1 := by ring
    simp only [movimientos_peon, List.mem_append, mem_if_singleton]
    norm_num [hsub]
    tauto

lemma torreRay_spec (tablero : Board) (origen : Pos) (jugador di dj : ℤ) :
    ∀ (fuel s : ℕ) (mv : Mv), 1 ≤ s →
      mv ∈ torreRay tablero origen jugador di dj
        (origen.1 + s * di) (origen.2 + s * dj) fuel →
      mv.1 = origen ∧
      ∃ k : ℕ, s ≤ k ∧ mv.2 = (origen.1 + k * di, origen.2 + k * dj) ∧
        (∀ m : ℕ, s ≤ m → m < k →
          (0 ≤ origen.1 + m * di ∧ origen.1 + m * di < 4 ∧
            0 ≤ origen.2 + m * dj ∧ origen.2 + m * dj < 4) ∧
          cell tablero (origen.1 + m * di) (origen.2 + m * dj) = 0) ∧
        (0 ≤ origen.1 + k * di ∧ origen.1 + k * di < 4 ∧
          0 ≤ origen.2 + k * dj ∧ origen.2 + k * dj < 4) ∧
        (cell tablero (origen.1 + k * di) (origen.2 + k * dj) = 0 ∨
          cell tablero (origen.1 + k * di) (origen.2 + k * dj) * jugador < 0) := by
  intro fuel
  induction fuel with
  | zero =>
    intro s mv _ h
    simp [torreRay] at h
  | succ fuel ih =>
    intro s mv hs h
    rw [torreRay] at h
    by_cases hin : 0 ≤ origen.1 + s * di ∧ origen.1 + s * di < 4 ∧
        0 ≤ origen.2 + s * dj ∧ origen.2 + s * dj < 4
    · rw [if_pos hin] at h
      by_cases hc : cell tablero (origen.1 + s * di) (origen.2 + s * dj) = 0
      · rw [if_pos hc] at h
        rcases List.mem_cons.mp h with heq | htail
        · refine ⟨by rw [heq], s, le_refl s, by rw [heq], ?_, hin, Or.inl hc⟩
          intro m hm1 hm2
          omega
        · have e1 : origen.1 + s * di + di = origen.1 + ((s + 1 : ℕ) : ℤ) * di := by
            push_cast
            ring
          have e2 : origen.2 + s * dj + dj = origen.2 + ((s + 1 : ℕ) : ℤ) * dj := by
            push_cast
            ring
          rw [e1, e2] at htail
          obtain ⟨hfst, k, hk, hdest, hmid, hrange, hcell⟩ :=
            ih (s + 1) mv (by omega) htail
          refine ⟨hfst, k, by omega, hdest, ?_, hrange, hcell⟩
          intro m hm1 hm2
          rcases eq_or_lt_of_le hm1 with heq | hlt
          · rw [← heq]
            exact ⟨hin, hc⟩
          · exact hmid m (by omega) hm2
      · rw [if_neg hc] at h
        by_cases hneg :
            cell tablero (origen.1 + s * di) (origen.2 + s * dj) * jugador < 0
        · rw [if_pos hneg] at h
          have heq : mv = (origen, (origen.1 + s * di, origen.2 + s * dj)) := by
            simpa using h
          refine ⟨by rw [heq], s, le_refl s, by rw [heq], ?_, hin, Or.inr hneg⟩
          intro m hm1 hm2
          omega
        · rw [if_neg hneg] at h
          simp at h
    · rw [if_neg hin] at h
      simp at h

/-- C7: every generated rook move starts at the rook's cell and slides
along one of the four orthogonal directions to a cell k steps away such
that each strictly intermediate cell on the ray is on the board and
empty, and the destination is on the board and either empty or holds an
opposing piece (never an own piece); since nothing strictly between
origin and destination is occupied, no candidate destination beyond the
first occupied cell of a ray is ever generated. -/
theorem claim_C7 (tablero : Board) (origen : Pos) (jugador : ℤ) (mv : Mv)
    (hmv : mv ∈ movimientos_torre tablero origen jugador) :
    mv.1 = origen ∧
    ∃ d ∈ direccionesTorre, ∃ k : ℕ, 1 ≤ k ∧
      mv.2 = (origen.1 + k * d.1, origen.2 + k * d.2) ∧
      (∀ m : ℕ, 1 ≤ m → m < k →
        (0 ≤ origen.1 + m * d.1 ∧ origen.1 + m * d.1 < 4 ∧
          0 ≤ origen.2 + m * d.2 ∧ origen.2 + m * d.2 < 4) ∧
        cell tablero (origen.1 + m * d.1) (origen.2 + m * d.2) = 0) ∧
      (0 ≤ origen.1 + k * d.1 ∧ origen.1 + k * d.1 < 4 ∧
        0 ≤ origen.2 + k * d.2 ∧ origen.2 + k * d.2 < 4) ∧
      (cell tablero (origen.1 + k * d.1) (origen.2 + k * d.2) = 0 ∨
        cell tablero (origen.1 + k * d.1) (origen.2 + k * d.2) * jugador < 0) := by
  unfold movimientos_torre at hmv
  rw [List.mem_flatMap] at hmv
  obtain ⟨d, hd, hmem⟩ := hmv
  have e1 : origen.1 + d.1 = origen.1 + ((1 : ℕ) : ℤ) * d.1 := by
    push_cast
    ring
  have e2 : origen.2 + d.2 = origen.2 + ((1 : ℕ) : ℤ) * d.2 := by
    push_cast
    ring
  rw [e1, e2] at hmem
  obtain ⟨hfst, k, hk, hdest, hmid, hrange, hcell⟩ :=
    torreRay_spec tablero origen jugador d.1 d.2 8 1 mv (le_refl 1) hmem
  exact ⟨hfst, d, hd, k, hk, hdest, hmid, hrange, hcell⟩

theorem claim_C7_witness :
    ((((1, 1), (1, 3)) : Mv) ∈ movimientos_torre bTorre (1, 1) 1) ∧
    ((((1, 1), (1, 3)) : Mv).1 = ((1, 1) : Pos) ∧
      ∃ d ∈ direccionesTorre, ∃ k : ℕ, 1 ≤ k ∧
        (((1, 1), (1, 3)) : Mv).2 = ((1 : ℤ) + k * d.1, (1 : ℤ) + k * d.2) ∧
        (∀ m : ℕ, 1 ≤ m → m < k →
          (0 ≤ (1 : ℤ) + m * d.1 ∧ (1 : ℤ) + m * d.1 < 4 ∧
            0 ≤ (1 : ℤ) + m * d.2 ∧ (1 : ℤ) + m * d.2 < 4) ∧
          cell bTorre ((1 : ℤ) + m * d.1) ((1 : ℤ) + m * d.2) = 0) ∧
        (0 ≤ (1 : ℤ) + k * d.1 ∧ (1 : ℤ) + k * d.1 < 4 ∧
          0 ≤ (1 : ℤ) + k * d.2 ∧ (1 : ℤ) + k * d.2 < 4) ∧
        (cell bTorre ((1 : ℤ) + k * d.1) ((1 : ℤ) + k * d.2) = 0 ∨
          cell bTorre ((1 : ℤ) + k * d.1) ((1 : ℤ) + k * d.2) * 1 < 0)) :=
  ⟨by decide, claim_C7 bTorre (1, 1) 1 ((1, 1), (1, 3)) (by decide)⟩
